import Mathlib

/-
Shallow embedding of the audio pipeline in src/app.py.

Samples and loudness values are exact rationals; segment lengths are
naturals.  Pydub segment lengths are milliseconds; numpy sample arrays are
modelled as lists of rationals.  Python int() truncation toward zero is
truncQ; the numpy astype int16 cast is modelled as truncation followed by a
wrap into the signed 16-bit range (wrap16).  Functions that can raise an
exception that the Streamlit main handler turns into a failed request are
modelled with Option or an explicit aborted outcome.
-/

/-- Result bundle of ai_optimize_parameters (src/app.py lines 16-30). -/
structure OptimizationParams where
  boost_factor : ℚ
  lowpass_cutoff : ℚ
deriving DecidableEq, Repr

/-- src/app.py lines 16-30.  The argument is the dBFS loudness of the
segment when it is computable (some d); none models the except branch in
which reading dBFS raised, returning the fixed fallback. -/
def ai_optimize_parameters : Option ℚ → OptimizationParams
  | some dBFS =>
      if dBFS < -30 then ⟨2, 3500⟩
      else if dBFS < -20 then ⟨1.8, 4000⟩
      else ⟨1.5, 4500⟩
  | none => ⟨1.5, 4000⟩

/-- src/app.py lines 33-39.  Beats are frame indices as returned by the
beat tracker; the except branch (an empty array makes the index raise)
returns 0. -/
def ai_optimize_beat_alignment (vocal_beats : List ℕ) (vocal_sr : ℚ)
    (mr_beats : List ℕ) (mr_sr : ℚ) : ℚ :=
  match vocal_beats, mr_beats with
  | v0 :: _, m0 :: _ =>
      max (min ((m0 : ℚ) / mr_sr - (v0 : ℚ) / vocal_sr) 5) (-5)
  | _, _ => 0

/-- Python int() on a rational: truncation toward zero. -/
def truncQ (q : ℚ) : ℤ :=
  if 0 ≤ q then ⌊q⌋ else ⌈q⌉

/-- numpy astype int16 applied to an integer value: wrap into the signed
16-bit range modulo two to the sixteenth. -/
def wrap16 (z : ℤ) : ℤ :=
  (z + 32768) % 65536 - 32768

/-- One sample of the float-to-PCM quantization used at src/app.py lines 45
and 99: multiply by the 16-bit full-scale value 32767, then astype int16
(truncate toward zero and wrap). -/
def float_to_int16 (a : ℚ) : ℤ :=
  wrap16 (truncQ (a * 32767))

/-- One sample of the PCM-to-float decoding at src/app.py lines 89-90:
divide the int16 sample by 32768. -/
def int16_to_float (s : ℤ) : ℚ :=
  (s : ℚ) / 32768

/-- Round trip of one sample through 16-bit PCM encoding (line 45 or 99)
and decoding (lines 89-90). -/
def pcm_roundtrip (a : ℚ) : ℚ :=
  int16_to_float (float_to_int16 a)

/-- np.max over the absolute values of the samples, as at src/app.py
line 96 (0 for the empty list; the source only applies it to non-empty
sample arrays). -/
def maxAbs (xs : List ℚ) : ℚ :=
  xs.foldr (fun x m => max |x| m) 0

/-- src/app.py lines 96-98: scale the whole buffer down by the peak when
the peak absolute amplitude exceeds 1. -/
def peak_normalize (xs : List ℚ) : List ℚ :=
  if 1 < maxAbs xs then xs.map (fun x => x / maxAbs xs) else xs

/-- src/app.py lines 192-200 at the level of segment length in
milliseconds.  A positive offset prepends int(offset times 1000) ms of
silence; a negative offset trims -int(offset times 1000) ms from the start
when that is shorter than the segment and otherwise leaves the segment
unchanged with a warning. -/
def align_vocal_len (offset : ℚ) (lv : ℕ) : ℕ :=
  if 0 < offset then (truncQ (offset * 1000)).toNat + lv
  else if offset < 0 then
    if (-(truncQ (offset * 1000))).toNat < lv then
      lv - (-(truncQ (offset * 1000))).toNat
    else lv
  else lv

/-- src/app.py lines 207-212 at the level of segment lengths (vocal,
accompaniment) in milliseconds.  When the accompaniment is shorter it is
repeated floor(lv / lm) + 1 times and sliced to the vocal length; the
slice of the repetition has length min of the two.  When the vocal is
shorter it is padded with trailing silence.  none models the
ZeroDivisionError raised by the repeat count when the accompaniment length
is zero. -/
def reconcileLens (lv lm : ℕ) : Option (ℕ × ℕ) :=
  if lm < lv then
    if lm = 0 then none
    else some (lv, min ((lv / lm + 1) * lm) lv)
  else if lv < lm then some (lv + (lm - lv), lm)
  else some (lv, lm)

/-- src/app.py lines 207-218: the length of the mixed output.  apply_gain
preserves length, and overlay keeps the length of its base segment, the
gain-adjusted accompaniment, so the mixed length is the reconciled
accompaniment length. -/
def mixLen (lv lm : ℕ) : Option ℕ :=
  (reconcileLens lv lm).map Prod.snd

/-- One stage of the pydub effect chains in src/app.py. -/
inductive Stage where
  | normalize : Stage
  | lowpass : ℚ → Stage
  | compress : Stage
  | fadeIn : ℕ → Stage
  | fadeOut : ℕ → Stage
  | bassBoost : ℚ → ℚ → Stage
  | noiseReduce : Stage
deriving DecidableEq, Repr

/-- src/app.py lines 113-123 (process_vocal_audio): the ordered effect
chain applied to the vocal segment, with the parameters drawn from
ai_optimize_parameters on the dBFS of the input segment.  The bassBoost
stage records boost factor and cutoff; the call site passes cutoff 150. -/
def process_vocal_stages (dBFS : Option ℚ) : List Stage :=
  [Stage.normalize,
   Stage.lowpass (ai_optimize_parameters dBFS).lowpass_cutoff,
   Stage.compress,
   Stage.bassBoost (ai_optimize_parameters dBFS).boost_factor 150,
   Stage.normalize]

/-- src/app.py lines 134-149 (process_festival_audio, success path): noise
reduction followed by the ordered effect chain with fades, parameters from
ai_optimize_parameters on the dBFS of the denoised segment. -/
def process_festival_stages (dBFS : Option ℚ) : List Stage :=
  [Stage.noiseReduce,
   Stage.normalize,
   Stage.lowpass (ai_optimize_parameters dBFS).lowpass_cutoff,
   Stage.compress,
   Stage.fadeIn 50,
   Stage.fadeOut 50,
   Stage.bassBoost (ai_optimize_parameters dBFS).boost_factor 150,
   Stage.normalize]

/-- src/app.py lines 130-153: process_festival_audio.  When the
noisereduce import failed (nr is None, line 132) the function raises
ImportError, the except block re-raises it, and the caller in main aborts
the request: modelled as none, with no stage applied.  Otherwise the full
stage list runs. -/
def process_festival (nrAvailable : Bool) (dBFS : Option ℚ) :
    Option (List Stage) :=
  if nrAvailable then some (process_festival_stages dBFS) else none

/-- Outcome of compute_beats (src/app.py lines 78-84): either the beat
frame list (possibly empty), or error when librosa beat_track raised and
compute_beats re-raised. -/
inductive BeatsOutcome where
  | ok : List ℕ → BeatsOutcome
  | error : BeatsOutcome
deriving DecidableEq, Repr

/-- Outcome of one auto-mix request in main (src/app.py lines 161-233):
aborted when an exception reached the outer except handler, or completed
with the flag recording whether the beat-detection-failed warning was
emitted (alignment skipped) and the mixed output length in ms. -/
inductive MixRun where
  | aborted : MixRun
  | completed : Bool → ℕ → MixRun
deriving DecidableEq, Repr

/-- src/app.py lines 182-218, the auto-mix path of main after loading, at
the level of beat outcomes and segment lengths.  A raised exception from
compute_beats propagates to the outer except (line 232) and aborts the
request.  With both beat lists present and non-empty, the offset is
computed and applied to the vocal; with either empty, the warning at line
202 is emitted and alignment is skipped.  Effects preserve length; mixing
follows mixLen, whose none case (zero accompaniment length with a longer
vocal) is the ZeroDivisionError that also aborts. -/
def auto_mix (vb mb : BeatsOutcome) (vocal_sr mr_sr : ℚ) (lv lm : ℕ) :
    MixRun :=
  match vb, mb with
  | BeatsOutcome.ok vbeats, BeatsOutcome.ok mbeats =>
      if 0 < vbeats.length ∧ 0 < mbeats.length then
        match mixLen
            (align_vocal_len
              (ai_optimize_beat_alignment vbeats vocal_sr mbeats mr_sr) lv)
            lm with
        | some L => MixRun.completed false L
        | none => MixRun.aborted
      else
        match mixLen lv lm with
        | some L => MixRun.completed true L
        | none => MixRun.aborted
  | _, _ => MixRun.aborted

/-! Helper lemmas shared by several claim theorems. -/

theorem abs_sub_truncQ_lt_one (q : ℚ) : |q - (truncQ q : ℚ)| < 1 := by
  unfold truncQ
  by_cases h : 0 ≤ q
  · rw [if_pos h, abs_of_nonneg (sub_nonneg.mpr (Int.floor_le q))]
    have := Int.sub_one_lt_floor q
    linarith
  · rw [if_neg h, abs_of_nonpos (sub_nonpos.mpr (Int.le_ceil q))]
    have := Int.ceil_lt_add_one q
    linarith

theorem abs_truncQ_le (q : ℚ) (c : ℤ) (h : |q| ≤ (c : ℚ)) : |truncQ q| ≤ c := by
  have hc : (0 : ℤ) ≤ c := by exact_mod_cast (abs_nonneg q).trans h
  unfold truncQ
  by_cases h0 : 0 ≤ q
  · rw [if_pos h0, abs_of_nonneg (Int.floor_nonneg.mpr h0)]
    have hq : q ≤ (c : ℚ) := (le_abs_self q).trans h
    calc ⌊q⌋ ≤ ⌊(c : ℚ)⌋ := Int.floor_le_floor hq
      _ = c := Int.floor_intCast c
  · rw [if_neg h0]
    have hqle : q ≤ 0 := le_of_not_le h0
    have hceil : ⌈q⌉ ≤ 0 := by
      have := Int.ceil_le_ceil (α := ℚ) hqle
      simpa using this
    rw [abs_of_nonpos hceil]
    have hq : (-(c : ℚ)) ≤ q := by
      have h2 := neg_abs_le q
      linarith
    have hcc : (-c : ℤ) ≤ ⌈q⌉ := by
      calc (-c : ℤ) = ⌈((-c : ℤ) : ℚ)⌉ := (Int.ceil_intCast _).symm
        _ ≤ ⌈q⌉ := Int.ceil_le_ceil (by push_cast; linarith)
    omega

theorem wrap16_eq_self (z : ℤ) (h1 : -32768 ≤ z) (h2 : z ≤ 32767) :
    wrap16 z = z := by
  unfold wrap16
  have h3 : (z + 32768) % 65536 = z + 32768 :=
    Int.emod_eq_of_lt (by omega) (by omega)
  omega

theorem float_to_int16_of_abs_le (a : ℚ) (h : |a| ≤ 1) :
    float_to_int16 a = truncQ (a * 32767)
    ∧ |truncQ (a * 32767)| ≤ 32767 := by
  have h2 : |a * 32767| ≤ ((32767 : ℤ) : ℚ) := by
    rw [abs_mul, abs_of_pos (by norm_num : (0 : ℚ) < 32767)]
    push_cast
    have h2a := mul_le_mul_of_nonneg_right h (by norm_num : (0 : ℚ) ≤ 32767)
    linarith
  have h3 := abs_truncQ_le _ _ h2
  rcases abs_le.mp h3 with ⟨h4, h5⟩
  refine ⟨?_, h3⟩
  unfold float_to_int16
  exact wrap16_eq_self _ (by omega) h5

theorem le_div_add_one_mul (lv lm : ℕ) (h : 0 < lm) :
    lv ≤ (lv / lm + 1) * lm := by
  have h1 : lv % lm < lm := Nat.mod_lt _ h
  calc lv = lm * (lv / lm) + lv % lm := (Nat.div_add_mod lv lm).symm
    _ ≤ lm * (lv / lm) + lm := Nat.add_le_add_left h1.le _
    _ = (lv / lm + 1) * lm := by ring

theorem reconcileLens_eq_max (lv lm : ℕ) (hlv : 0 < lv) (hlm : 0 < lm) :
    reconcileLens lv lm = some (max lv lm, max lv lm) := by
  unfold reconcileLens
  by_cases h1 : lm < lv
  · rw [if_pos h1, if_neg (Nat.pos_iff_ne_zero.mp hlm)]
    rw [min_eq_right (le_div_add_one_mul lv lm hlm)]
    rw [max_eq_left h1.le]
  · rw [if_neg h1]
    by_cases h2 : lv < lm
    · rw [if_pos h2, max_eq_right h2.le]
      have h3 : lv + (lm - lv) = lm := by omega
      rw [h3]
    · rw [if_neg h2]
      have h3 : lv = lm := le_antisymm (not_lt.mp h1) (not_lt.mp h2)
      rw [h3, max_self]

theorem mixLen_eq_max (lv lm : ℕ) (hlv : 0 < lv) (hlm : 0 < lm) :
    mixLen lv lm = some (max lv lm) := by
  unfold mixLen
  rw [reconcileLens_eq_max lv lm hlv hlm]
  rfl

/-- C1: for every loudness d the parameter optimizer returns exactly one of
the three fixed bundles per the threshold table: d below -30 gives boost 2
and cutoff 3500, d in the half-open band from -30 to -20 gives 1.8 and
4000, d at least -20 gives 1.5 and 4500; and the boundary values -30 and
-20 resolve to the documented side of each inequality. -/
theorem ai_optimize_parameters_threshold_table (d : ℚ) :
    (d < -30 → ai_optimize_parameters (some d) = ⟨2, 3500⟩)
    ∧ (-30 ≤ d → d < -20 → ai_optimize_parameters (some d) = ⟨1.8, 4000⟩)
    ∧ (-20 ≤ d → ai_optimize_parameters (some d) = ⟨1.5, 4500⟩)
    ∧ (ai_optimize_parameters (some d) = ⟨2, 3500⟩
        ∨ ai_optimize_parameters (some d) = ⟨1.8, 4000⟩
        ∨ ai_optimize_parameters (some d) = ⟨1.5, 4500⟩)
    ∧ ai_optimize_parameters (some (-30)) = ⟨1.8, 4000⟩
    ∧ ai_optimize_parameters (some (-20)) = ⟨1.5, 4500⟩ := by
  simp only [ai_optimize_parameters]
  refine ⟨?_, ?_, ?_, ?_, ?_, ?_⟩
  · intro h; rw [if_pos h]
  · intro h1 h2
    rw [if_neg (not_lt.mpr h1), if_pos h2]
  · intro h
    rw [if_neg (by linarith : ¬ d < -30), if_neg (not_lt.mpr (by linarith))]
  · by_cases h1 : d < -30
    · left; rw [if_pos h1]
    · by_cases h2 : d < -20
      · right; left; rw [if_neg h1, if_pos h2]
      · right; right; rw [if_neg h1, if_neg h2]
  · norm_num
  · norm_num

/-- C1 witness: scenario A, loudness -35 dBFS selects boost 2 and cutoff
3500. -/
theorem ai_optimize_parameters_threshold_table_witness :
    ai_optimize_parameters (some (-35)) = ⟨2, 3500⟩ :=
  (ai_optimize_parameters_threshold_table (-35)).1 (by norm_num)

/-- C2: for every pair of non-empty beat tracks and positive sample rates
the alignment offset equals the raw first-beat time difference clamped
into the band from -5 to 5, and in particular the offset always lies in
that band even when the raw difference exceeds it. -/
theorem beat_alignment_offset_clamped (v0 m0 : ℕ) (vt mt : List ℕ)
    (vocal_sr mr_sr : ℚ) (hv : 0 < vocal_sr) (hm : 0 < mr_sr) :
    (-5 ≤ ai_optimize_beat_alignment (v0 :: vt) vocal_sr (m0 :: mt) mr_sr
      ∧ ai_optimize_beat_alignment (v0 :: vt) vocal_sr (m0 :: mt) mr_sr ≤ 5)
    ∧ ((m0 : ℚ) / mr_sr - (v0 : ℚ) / vocal_sr < -5 →
        ai_optimize_beat_alignment (v0 :: vt) vocal_sr (m0 :: mt) mr_sr = -5)
    ∧ (-5 ≤ (m0 : ℚ) / mr_sr - (v0 : ℚ) / vocal_sr →
        (m0 : ℚ) / mr_sr - (v0 : ℚ) / vocal_sr ≤ 5 →
        ai_optimize_beat_alignment (v0 :: vt) vocal_sr (m0 :: mt) mr_sr
          = (m0 : ℚ) / mr_sr - (v0 : ℚ) / vocal_sr)
    ∧ (5 < (m0 : ℚ) / mr_sr - (v0 : ℚ) / vocal_sr →
        ai_optimize_beat_alignment (v0 :: vt) vocal_sr (m0 :: mt) mr_sr = 5) := by
  simp only [ai_optimize_beat_alignment]
  refine ⟨⟨le_max_right _ _, max_le (min_le_right _ _) (by norm_num)⟩, ?_, ?_, ?_⟩
  · intro h
    rw [min_eq_left (by linarith), max_eq_right (by linarith)]
  · intro h1 h2
    rw [min_eq_left h2, max_eq_left h1]
  · intro h
    rw [min_eq_right h.le, max_eq_left (by norm_num : (-5 : ℚ) ≤ 5)]

/-- C2 witness: scenario B, accompaniment first beat at frame 0 and vocal
first beat at frame 22050 at sample rate 44100 gives offset minus one
half. -/
theorem beat_alignment_offset_clamped_witness :
    ai_optimize_beat_alignment [22050] 44100 [0] 44100 = -(1 / 2) := by
  have h := (beat_alignment_offset_clamped 22050 0 [] [] 44100 44100
      (by norm_num) (by norm_num)).2.2.1 (by norm_num) (by norm_num)
  rw [h]
  norm_num

/-- C3 counterexample: when the beat tracker errors on the vocal track
(compute_beats re-raises), the auto-mix request is aborted by the outer
exception handler, so beat-detection failure by error is fatal: the
remaining stages do not run, contradicting the claim that the request is
never aborted for this cause. -/
theorem auto_mix_beat_error_aborts :
    auto_mix BeatsOutcome.error (BeatsOutcome.ok [0]) 44100 44100 1000 1000
      = MixRun.aborted := rfl

/-- C3 amended: only the empty-beat-sequence form of beat-detection
failure is non-fatal: with both compute_beats calls returning and either
list empty, alignment is skipped with the advisory warning and the
remaining stages still run to a mixed output; when the beat-tracking
algorithm errors on either track, the exception aborts the request. -/
theorem auto_mix_beat_empty_nonfatal_error_fatal (vbeats mbeats : List ℕ)
    (vocal_sr mr_sr : ℚ) (lv lm : ℕ) (hlv : 0 < lv) (hlm : 0 < lm)
    (hempty : vbeats = [] ∨ mbeats = []) :
    auto_mix (BeatsOutcome.ok vbeats) (BeatsOutcome.ok mbeats)
        vocal_sr mr_sr lv lm
      = MixRun.completed true (max lv lm)
    ∧ auto_mix BeatsOutcome.error (BeatsOutcome.ok mbeats)
        vocal_sr mr_sr lv lm = MixRun.aborted
    ∧ auto_mix (BeatsOutcome.ok vbeats) BeatsOutcome.error
        vocal_sr mr_sr lv lm = MixRun.aborted := by
  refine ⟨?_, rfl, rfl⟩
  have hcond : ¬ (0 < vbeats.length ∧ 0 < mbeats.length) := by
    rcases hempty with h | h <;> subst h <;> simp
  simp only [auto_mix, if_neg hcond, mixLen_eq_max lv lm hlv hlm]

/-- C3 witness for the amended claim: empty vocal beat list, non-empty
accompaniment beat list, vocal 2000 ms and accompaniment 1000 ms complete
with the advisory flag and output length 2000 ms. -/
theorem auto_mix_beat_empty_nonfatal_error_fatal_witness :
    auto_mix (BeatsOutcome.ok []) (BeatsOutcome.ok [3]) 44100 44100 2000 1000
      = MixRun.completed true 2000 := by
  have h := (auto_mix_beat_empty_nonfatal_error_fatal [] [3] 44100 44100
      2000 1000 (by norm_num) (by norm_num) (Or.inl rfl)).1
  simpa using h

/-- C4 counterexample: with the noisereduce capability unavailable and a
festival request of loudness -25 dBFS, process_festival_audio raises and
the request fails with no stage applied, contradicting the claim that the
remaining effects chain still runs with the noise-reduction step reported
as skipped. -/
theorem process_festival_without_nr_fails_at_input :
    process_festival false (some (-25)) = none := rfl

/-- C4 amended: when no noise-reduction capability is available at
runtime, every field-recording cleanup request fails (the ImportError is
re-raised and the caller reports an error); none of the remaining effects
are applied. -/
theorem process_festival_without_nr_always_fails (dBFS : Option ℚ) :
    process_festival false dBFS = none := rfl

/-- C5: for every pair of post-effects segment lengths with the positive
lengths guaranteed by the data model, the mixed output length equals the
maximum of the two: a shorter accompaniment is repeated enough times to
cover the vocal length and the slice truncates it to exactly the vocal
length, a shorter vocal is padded with trailing silence to the
accompaniment length, and equal lengths are left unchanged. -/
theorem mixer_output_length_max (lv lm : ℕ) (hlv : 0 < lv) (hlm : 0 < lm) :
    reconcileLens lv lm = some (max lv lm, max lv lm)
    ∧ mixLen lv lm = some (max lv lm)
    ∧ (lm < lv → lv ≤ (lv / lm + 1) * lm) :=
  ⟨reconcileLens_eq_max lv lm hlv hlm, mixLen_eq_max lv lm hlv hlm,
    fun _ => le_div_add_one_mul lv lm hlm⟩

/-- C5 witness: scenario C, vocal 10000 ms and accompaniment 4000 ms mix
to 10000 ms. -/
theorem mixer_output_length_max_witness :
    mixLen 10000 4000 = some 10000 := by
  have h := (mixer_output_length_max 10000 4000
      (by norm_num) (by norm_num)).2.1
  simpa using h

/-- C6: in the vocal effects chain the spectral bass boost is always
applied with cutoff fixed at 150 Hz regardless of the optimizer lowpass
cutoff, the optimizer lowpass cutoff (which is never 150) is used only by
the preceding low-pass stage, and the stage order is exactly normalize,
low-pass at the optimizer cutoff, dynamic-range compression, bass boost at
the boost factor with cutoff 150, final normalize; the festival chain also
anchors its bass boost at 150 Hz. -/
theorem effects_chain_order_and_cutoffs (d : Option ℚ) :
    process_vocal_stages d =
      [Stage.normalize,
       Stage.lowpass (ai_optimize_parameters d).lowpass_cutoff,
       Stage.compress,
       Stage.bassBoost (ai_optimize_parameters d).boost_factor 150,
       Stage.normalize]
    ∧ (∀ f c : ℚ, Stage.bassBoost f c ∈ process_vocal_stages d →
        c = 150 ∧ f = (ai_optimize_parameters d).boost_factor)
    ∧ (∀ c : ℚ, Stage.lowpass c ∈ process_vocal_stages d →
        c = (ai_optimize_parameters d).lowpass_cutoff)
    ∧ (∀ f c : ℚ, Stage.bassBoost f c ∈ process_festival_stages d → c = 150)
    ∧ (ai_optimize_parameters d).lowpass_cutoff ≠ 150 := by
  refine ⟨rfl, ?_, ?_, ?_, ?_⟩
  · intro f c h
    simp only [process_vocal_stages, List.mem_cons, List.not_mem_nil,
      or_false] at h
    rcases h with h | h | h | h | h <;> simp_all
  · intro c h
    simp only [process_vocal_stages, List.mem_cons, List.not_mem_nil,
      or_false] at h
    rcases h with h | h | h | h | h <;> simp_all
  · intro f c h
    simp only [process_festival_stages, List.mem_cons, List.not_mem_nil,
      or_false] at h
    rcases h with h | h | h | h | h | h | h | h <;> simp_all
  · rcases d with _ | x
    · norm_num [ai_optimize_parameters]
    · simp only [ai_optimize_parameters]
      split_ifs <;> norm_num

/-- C6 witness: loudness -25 dBFS yields the concrete chain normalize,
low-pass 4000, compress, bass boost 1.8 at cutoff 150, normalize. -/
theorem effects_chain_order_and_cutoffs_witness :
    process_vocal_stages (some (-25)) =
      [Stage.normalize, Stage.lowpass 4000, Stage.compress,
       Stage.bassBoost 1.8 150, Stage.normalize] := by
  have h := (effects_chain_order_and_cutoffs (some (-25))).1
  rw [h]
  norm_num [ai_optimize_parameters]

/-- C8: for every negative offset, alignment trims the truncated
millisecond equivalent of the offset magnitude from the start of the vocal
segment when that amount is less than the segment length, leaving a
positive length; otherwise alignment is skipped with a warning and the
segment is unchanged; the aligned length never exceeds the original, so
the trim never passes the end of the segment and never yields a
negative-length segment. -/
theorem negative_offset_trim_safety (offset : ℚ) (lv : ℕ)
    (hneg : offset < 0) :
    ((-(truncQ (offset * 1000))).toNat < lv →
        align_vocal_len offset lv = lv - (-(truncQ (offset * 1000))).toNat
        ∧ 0 < align_vocal_len offset lv)
    ∧ (lv ≤ (-(truncQ (offset * 1000))).toNat →
        align_vocal_len offset lv = lv)
    ∧ align_vocal_len offset lv ≤ lv := by
  have hnp : ¬ 0 < offset := by linarith
  unfold align_vocal_len
  rw [if_neg hnp, if_pos hneg]
  by_cases ht : (-(truncQ (offset * 1000))).toNat < lv
  · rw [if_pos ht]
    exact ⟨fun _ => ⟨rfl, by omega⟩, fun h => by omega, Nat.sub_le _ _⟩
  · rw [if_neg ht]
    exact ⟨fun h => absurd h ht, fun _ => rfl, le_rfl⟩

/-- C8 witness: scenario B, offset minus one half second on a 1000 ms
vocal trims 500 ms from the start. -/
theorem negative_offset_trim_safety_witness :
    align_vocal_len (-(1 / 2)) 1000 = 500 := by
  have htr : (-(truncQ ((-(1 / 2) : ℚ) * 1000))).toNat = 500 := by
    have hc : truncQ ((-(1 / 2) : ℚ) * 1000) = -500 := by
      unfold truncQ
      rw [if_neg (by norm_num), show ((-(1 / 2) : ℚ) * 1000)
        = ((-500 : ℤ) : ℚ) by norm_num]
      exact Int.ceil_intCast _
    rw [hc]
    rfl
  have h := ((negative_offset_trim_safety (-(1 / 2)) 1000 (by norm_num)).1
      (by rw [htr]; norm_num)).1
  rw [htr] at h
  simpa using h

/-- C9 counterexample: the sample 65533 / 65534 lies in the unit range,
but its PCM round trip error exceeds one quantization step 1 / 32767,
because encoding multiplies by 32767 (line 45 and line 99) while decoding
divides by 32768 (line 90), in addition to the truncation toward zero. -/
theorem pcm_roundtrip_error_exceeds_one_step :
    (-1 ≤ (65533 : ℚ) / 65534 ∧ (65533 : ℚ) / 65534 ≤ 1)
    ∧ 1 / 32767
        < |(65533 : ℚ) / 65534 - pcm_roundtrip ((65533 : ℚ) / 65534)| := by
  refine ⟨⟨by norm_num, by norm_num⟩, ?_⟩
  have h1 : truncQ ((65533 : ℚ) / 65534 * 32767) = 32766 := by
    unfold truncQ
    rw [if_pos (by norm_num),
      show ((65533 : ℚ) / 65534 * 32767) = 65533 / 2 by norm_num,
      Int.floor_eq_iff]
    constructor <;> norm_num
  have h2 : pcm_roundtrip ((65533 : ℚ) / 65534) = 32766 / 32768 := by
    unfold pcm_roundtrip float_to_int16 int16_to_float
    rw [h1, wrap16_eq_self 32766 (by norm_num) (by norm_num)]
    norm_num
  rw [h2, abs_of_pos (by norm_num : (0 : ℚ) < 65533 / 65534 - 32766 / 32768)]
  norm_num

/-- C9 amended: for every sample in the unit range the PCM round trip
reproduces the amplitude to within two quantization steps, strictly less
than 2 / 32768 = 1 / 16384; the one-step bound 1 / 32767 of the original
claim fails because the encoder scales by 32767 while the decoder divides
by 32768. -/
theorem pcm_roundtrip_error_lt_two_steps (a : ℚ) (hl : -1 ≤ a)
    (hu : a ≤ 1) :
    |a - pcm_roundtrip a| < 1 / 16384 := by
  have ha : |a| ≤ 1 := abs_le.mpr ⟨hl, hu⟩
  obtain ⟨h2, _⟩ := float_to_int16_of_abs_le a ha
  have h5 : |a * 32767 - (truncQ (a * 32767) : ℚ)| < 1 :=
    abs_sub_truncQ_lt_one _
  unfold pcm_roundtrip int16_to_float
  rw [h2]
  have key : a - (truncQ (a * 32767) : ℚ) / 32768
      = (a + (a * 32767 - (truncQ (a * 32767) : ℚ))) / 32768 := by
    ring
  rw [key, abs_div, abs_of_pos (by norm_num : (0 : ℚ) < 32768)]
  have h6 : |a + (a * 32767 - (truncQ (a * 32767) : ℚ))| < 2 := by
    calc |a + (a * 32767 - (truncQ (a * 32767) : ℚ))|
        ≤ |a| + |a * 32767 - (truncQ (a * 32767) : ℚ)| := abs_add _ _
      _ < 2 := by linarith
  have h7 : |a + (a * 32767 - (truncQ (a * 32767) : ℚ))| / 32768
      < 2 / 32768 := by
    gcongr
  have h8 : (2 : ℚ) / 32768 = 1 / 16384 := by norm_num
  linarith

/-- C9 witness for the amended claim: the sample one half round trips with
error below 1 / 16384. -/
theorem pcm_roundtrip_error_lt_two_steps_witness :
    |(1 / 2 : ℚ) - pcm_roundtrip (1 / 2)| < 1 / 16384 :=
  pcm_roundtrip_error_lt_two_steps (1 / 2) (by norm_num) (by norm_num)

theorem maxAbs_ge (xs : List ℚ) : ∀ x ∈ xs, |x| ≤ maxAbs xs := by
  induction xs with
  | nil => simp
  | cons y t ih =>
      intro x hx
      simp only [maxAbs, List.foldr] at *
      rcases List.mem_cons.mp hx with h | h
      · subst h
        exact le_max_left _ _
      · exact le_trans (ih x h) (le_max_right _ _)

theorem peak_normalize_abs_le (xs : List ℚ) :
    ∀ x ∈ peak_normalize xs, |x| ≤ 1 := by
  intro x hx
  unfold peak_normalize at hx
  by_cases h : 1 < maxAbs xs
  · rw [if_pos h] at hx
    rcases List.mem_map.mp hx with ⟨y, hy, rfl⟩
    have h1 : |y| ≤ maxAbs xs := maxAbs_ge xs y hy
    have h0 : 0 < maxAbs xs := lt_trans one_pos h
    rw [abs_div, abs_of_pos h0]
    exact div_le_one_of_le₀ h1 h0.le
  · rw [if_neg h] at hx
    exact le_trans (maxAbs_ge xs x hx) (not_lt.mp h)

/-- C10: for every reconstructed sample buffer, after the peak
normalization guard every sample has absolute value at most 1, so
multiplying by 32767 and casting to int16 truncates without wrapping: the
quantized value always lies between -32767 and 32767 and the 16-bit wrap
is the identity on it. -/
theorem quantize_guard_no_overflow (xs : List ℚ) (x : ℚ)
    (hx : x ∈ peak_normalize xs) :
    |x| ≤ 1
    ∧ float_to_int16 x = truncQ (x * 32767)
    ∧ -32767 ≤ float_to_int16 x ∧ float_to_int16 x ≤ 32767 := by
  have h1 : |x| ≤ 1 := peak_normalize_abs_le xs x hx
  obtain ⟨h2, h3⟩ := float_to_int16_of_abs_le x h1
  rcases abs_le.mp h3 with ⟨h4, h5⟩
  exact ⟨h1, h2, by rw [h2]; exact h4, by rw [h2]; exact h5⟩

/-- C10 witness: the buffer with the single sample -2 is scaled by its
peak to -1, which quantizes to -32767 with no wraparound. -/
theorem quantize_guard_no_overflow_witness :
    ((-1 : ℚ) ∈ peak_normalize [-2])
    ∧ (|(-1 : ℚ)| ≤ 1
       ∧ float_to_int16 (-1) = truncQ ((-1 : ℚ) * 32767)
       ∧ -32767 ≤ float_to_int16 (-1) ∧ float_to_int16 (-1) ≤ 32767) := by
  have hm : maxAbs [-2] = 2 := by
    simp only [maxAbs, List.foldr]
    rw [abs_of_neg (by norm_num : (-2 : ℚ) < 0),
      show (- -2 : ℚ) = 2 by norm_num,
      max_eq_left (by norm_num : (0 : ℚ) ≤ 2)]
  have hx : (-1 : ℚ) ∈ peak_normalize [-2] := by
    unfold peak_normalize
    rw [hm, if_pos (by norm_num : (1 : ℚ) < 2)]
    simp only [List.map_cons, List.map_nil, List.mem_singleton]
    norm_num
  exact ⟨hx, quantize_guard_no_overflow [-2] (-1) hx⟩
